import Mathlib

/-!
Verification of the decision layer of the Plagiarism-Detection-System
repository: similarity scoring, threshold classification, corpus checking,
extractive summarization, and the frontend's upload/delete/compare guards.

The backend (`sbert_backend.py`) is not part of the shipped sources; its
behaviour is modelled from the specification (each such definition carries a
`Modelled from the spec:` doc comment).  The frontend (`App.js`) is present
and its guard logic is embedded directly.
-/

/-- Leading/trailing-whitespace trim on a character list (structural, so that
concrete instances reduce in the kernel). -/
def trimChars (cs : List Char) : List Char :=
  ((cs.dropWhile Char.isWhitespace).reverse.dropWhile Char.isWhitespace).reverse

/-- Whitespace trim on strings, the semantics of JavaScript's
`String.prototype.trim` / Python's `str.strip` as used by the system. -/
def strTrim (s : String) : String := ⟨trimChars s.data⟩

/-- Split a character list at every separator recognised by `p`; separators
are consumed, empty segments are kept. -/
def splitChars (p : Char → Bool) : List Char → List (List Char)
  | [] => [[]]
  | c :: cs =>
    if p c then [] :: splitChars p cs
    else
      match splitChars p cs with
      | [] => [[c]]
      | g :: gs => (c :: g) :: gs

/-- Substring test (JavaScript `String.prototype.includes`). -/
def strContainsAux (needle : List Char) : List Char → Bool
  | [] => needle.isEmpty
  | c :: rest => needle.isPrefixOf (c :: rest) || strContainsAux needle rest

/-- `strContains hay needle` is true iff `needle` occurs contiguously in
`hay`. -/
def strContains (hay needle : String) : Bool := strContainsAux needle.data hay.data

/-- Suffix test (JavaScript `String.prototype.endsWith`). -/
def strEndsWith (s sfx : String) : Bool := List.isSuffixOf sfx.data s.data

namespace Backend

/-- Modelled from the spec: error taxonomy of §7 — `InvalidInputError` for
malformed/empty/out-of-range input, `NotFoundError` for an absent document id.
(`ProviderError` is omitted: the embedding provider is modelled as a total
function, per §2's external-collaborator contract.) -/
inductive ApiError where
  | InvalidInputError (msg : String)
  | NotFoundError (msg : String)
deriving DecidableEq, Repr

/-- Modelled from the spec: the `SimilarityResult` record of §3. -/
structure SimilarityResult where
  similarity_score : ℚ
  is_plagiarized : Bool
  threshold : ℚ
  message : String
deriving DecidableEq, Repr

/-- Modelled from the spec: the fixed process-wide decision boundary of §4.1
("a fixed configuration constant (e.g., 0.8)"). -/
def THRESHOLD : ℚ := 8 / 10

/-- Modelled from the spec: verdict string for the plagiarized case (§4.1:
`message` is one of two fixed strings derived from the boolean). -/
def PLAGIARIZED_MESSAGE : String := "Potential plagiarism detected"

/-- Modelled from the spec: verdict string for the original case. -/
def ORIGINAL_MESSAGE : String := "Content appears original"

/-- Modelled from the spec: dot product of two embedding vectors (§4.1). -/
def dot (a b : List ℚ) : ℚ := (List.zipWith (fun x y => x * y) a b).sum

/-- Modelled from the spec: squared Euclidean norm of an embedding vector; a
vector has zero norm exactly when its squared norm is zero. -/
def normSq (v : List ℚ) : ℚ := dot v v

/-- Modelled from the spec: clamp the raw cosine similarity to [0.0, 1.0]
(§4.1: negative values are floored to 0.0). -/
def clamp01 (x : ℚ) : ℚ := max 0 (min 1 x)

/-- Modelled from the spec: cosine similarity `(A·B) / (‖A‖·‖B‖)` of §4.1 with
the zero-norm guard — "division by a zero-norm vector must be treated as
similarity 0.0 rather than raising a numeric error".  The square root of the
spec's formula is an irrational-valued operation; it is abstracted as the
`sqrt` parameter, which none of the guarded properties depend on. -/
def cosineSim (sqrt : ℚ → ℚ) (a b : List ℚ) : ℚ :=
  if normSq a = 0 ∨ normSq b = 0 then 0
  else dot a b / (sqrt (normSq a) * sqrt (normSq b))

/-- Modelled from the spec: assemble a `SimilarityResult` from an
already-clamped score (§4.1 decision step: `is_plagiarized = score >=
THRESHOLD`, threshold exposed in the result, message derived from the
boolean). -/
def mkResult (score : ℚ) : SimilarityResult :=
  { similarity_score := score
    is_plagiarized := decide (THRESHOLD ≤ score)
    threshold := THRESHOLD
    message := if THRESHOLD ≤ score then PLAGIARIZED_MESSAGE else ORIGINAL_MESSAGE }

/-- Modelled from the spec: `compare(textA, textB) -> SimilarityResult` of
§4.1.  Both inputs must be non-empty after trimming whitespace
(`InvalidInputError` otherwise); the embedding provider is the abstract
parameter `embed`. -/
def compare (sqrt : ℚ → ℚ) (embed : String → List ℚ) (t1 t2 : String) :
    Except ApiError SimilarityResult :=
  if strTrim t1 = "" ∨ strTrim t2 = "" then
    .error (.InvalidInputError "Both texts are required and must be non-empty")
  else
    .ok (mkResult (clamp01 (cosineSim sqrt (embed t1) (embed t2))))

/-- Modelled from the spec: the `Document` record of §3 — id, filename, text,
cached size and cached embedding. -/
structure Document where
  id : Nat
  filename : String
  text : String
  size : Nat
  embedding : List ℚ
deriving DecidableEq, Repr

/-- Modelled from the spec: one entry of a corpus check — a per-document
`SimilarityResult` augmented with the compared document's id/filename (§3,
CheckResult.results). -/
structure CheckEntry where
  document_id : Nat
  filename : String
  similarity_score : ℚ
  is_plagiarized : Bool
  threshold : ℚ
deriving DecidableEq, Repr

/-- Modelled from the spec: the `CheckResult` aggregate of §3. -/
structure CheckResult where
  results : List CheckEntry
  average_similarity : ℚ
  plagiarism_count : Nat
deriving DecidableEq, Repr

/-- Modelled from the spec: build a check entry for candidate document `d`
from an already-clamped score, via the same decision logic as `mkResult`. -/
def mkEntry (d : Document) (score : ℚ) : CheckEntry :=
  { document_id := d.id
    filename := d.filename
    similarity_score := (mkResult score).similarity_score
    is_plagiarized := (mkResult score).is_plagiarized
    threshold := (mkResult score).threshold }

/-- Modelled from the spec: `check(documentId) -> CheckResult` of §4.3.  The
DocumentStore is its insertion-ordered list of documents; the subject is
looked up by id (`NotFoundError` if absent), every other document is compared
against it using the cached embeddings and the §4.1
cosine-clamp-and-threshold logic, and the aggregate statistics are computed
over the collected results (mean defined as 0.0 for an empty result list). -/
def check (sqrt : ℚ → ℚ) (store : List Document) (docId : Nat) :
    Except ApiError CheckResult :=
  match store.find? (fun d => d.id == docId) with
  | none => .error (.NotFoundError "Document not found")
  | some subject =>
    let rs := (store.filter (fun d => d.id != docId)).map
      (fun d => mkEntry d (clamp01 (cosineSim sqrt subject.embedding d.embedding)))
    .ok { results := rs
          average_similarity :=
            if rs = [] then 0
            else (rs.map (fun e => e.similarity_score)).sum / (rs.length : ℚ)
          plagiarism_count := (rs.filter (fun e => e.is_plagiarized)).length }

end Backend

/-- The threshold-consistency property of a single similarity result: the
boolean verdict agrees with comparing the reported score against the reported
threshold. -/
def Backend.SimilarityResult.thresholdConsistent (r : Backend.SimilarityResult) : Prop :=
  r.is_plagiarized = decide (r.threshold ≤ r.similarity_score)

/-- Threshold consistency for an entry of a corpus check. -/
def Backend.CheckEntry.thresholdConsistent (e : Backend.CheckEntry) : Prop :=
  e.is_plagiarized = decide (e.threshold ≤ e.similarity_score)

namespace Backend

/-- Modelled from the spec: the `SummaryResult` record of §3.  The source's
`compression_ratio` field is carried as `compressionRatioVal`
(`summary_length / original_length`, 0.0 for an empty original). -/
structure SummaryResult where
  original_length : Nat
  summary_length : Nat
  compressionRatioVal : ℚ
  summary : String
deriving DecidableEq, Repr

/-- Modelled from the spec: §4.4 step 1 — segment a text into sentences at
sentence-boundary punctuation (`.`, `!`, `?`), trimming each piece and
dropping empty pieces. -/
def sentencesOf (text : String) : List String :=
  (((splitChars (fun c => c == '.' || c == '!' || c == '?') text.data).map
      (fun g => strTrim ⟨g⟩)).filter (fun s => !s.data.isEmpty))

/-- Modelled from the spec: the words of a sentence — split at spaces,
dropping empty pieces. -/
def wordsOf (s : String) : List String :=
  ((splitChars (fun c => c == ' ') s.data).map (fun g : List Char => (⟨g⟩ : String))).filter
    (fun w => !w.data.isEmpty)

/-- Join a list of sentence (or word) strings with single spaces. -/
def joinSp : List String → String
  | [] => ""
  | [s] => s
  | s :: rest => s ++ " " ++ joinSp rest

/-- Modelled from the spec: position bonus of §4.4 step 2 — first and last
sentences receive a fixed bonus, reflecting topic-sentence placement. -/
def POSITION_BONUS : Nat := 2

/-- Modelled from the spec: §4.4 step 2 — score an indexed sentence by the
document-wide term frequency of its non-trivial words (words longer than 3
characters), plus the position bonus for the first and last sentences. -/
def sentScore (allWords : List String) (n : Nat) (p : Nat × String) : Nat :=
  (((wordsOf p.2).filter (fun w => 3 < w.length)).map
      (fun w => allWords.count w)).sum +
    (if p.1 = 0 ∨ p.1 = n - 1 then POSITION_BONUS else 0)

/-- Modelled from the spec: §4.4 step 2/3 — the sentences of the text, paired
with their original positions, ranked by score descending. -/
def rankedSentences (text : String) : List (Nat × String) :=
  let sents := (sentencesOf text).enum
  let allWords := wordsOf text
  List.insertionSort
    (fun a b => sentScore allWords sents.length b ≤ sentScore allWords sents.length a)
    sents

/-- Modelled from the spec: greedy word-prefix truncation of §4.4 step 3 —
keep appending whole words of the top sentence while the joined length stays
within `maxL` (`cur` is the joined length of the words taken so far, which is
positive). -/
def takeFitRest (maxL : Nat) : Nat → List String → List String
  | _, [] => []
  | cur, w :: ws =>
    if cur + 1 + w.length ≤ maxL then w :: takeFitRest maxL (cur + 1 + w.length) ws
    else []

/-- Modelled from the spec: truncate a sentence to the maximal prefix of
complete words whose joined length is at most `maxL` (never splitting a word
mid-character). -/
def truncateWords (maxL : Nat) (s : String) : String :=
  match wordsOf s with
  | [] => ""
  | w :: ws => if w.length ≤ maxL then joinSp (w :: takeFitRest maxL w.length ws) else ""

/-- Modelled from the spec: §4.4 step 3 greedy accumulation — starting from
the non-empty already-selected `acc` of joined length `len`, keep taking
ranked sentences until the accumulated length reaches `minL`, stopping before
any sentence that would push the joined length beyond `maxL`. -/
def selectGo (minL maxL : Nat) (acc : List (Nat × String)) (len : Nat) :
    List (Nat × String) → List (Nat × String)
  | [] => acc
  | s :: rest =>
    if minL ≤ len then acc
    else if len + 1 + s.2.length ≤ maxL then
      selectGo minL maxL (acc ++ [s]) (len + 1 + s.2.length) rest
    else acc

/-- Modelled from the spec: §4.4 step 3 — select ranked sentences greedily;
if the highest-ranked sentence alone exceeds `maxL`, the selection is its
word-boundary truncation (the degenerate truncation case). -/
def selectRanked (minL maxL : Nat) : List (Nat × String) → List (Nat × String)
  | [] => []
  | top :: rest =>
    if maxL < top.2.length then [(top.1, truncateWords maxL top.2)]
    else selectGo minL maxL [top] top.2.length rest

/-- Modelled from the spec: §4.4 step 4 — re-order the selected sentences by
original position and join them into the summary text. -/
def summaryOf (text : String) (minL maxL : Nat) : String :=
  joinSp ((List.insertionSort (fun a b => a.1 ≤ b.1)
    (selectRanked minL maxL (rankedSentences text))).map (fun p => p.2))

/-- Modelled from the spec: minimum viable input size for summarization
(§4.4: "a minimum viable size (e.g., 20 characters)"). -/
def MIN_SUMMARY_INPUT : Nat := 20

/-- Modelled from the spec: `summarize(text, minLength, maxLength) ->
SummaryResult` of §4.4 — validation (trimmed length at least the minimum
viable size, `minLength ≤ maxLength`, both positive) followed by the
extract-rank-select-reorder pipeline. -/
def summarize (text : String) (minL maxL : Nat) :
    Except ApiError SummaryResult :=
  if (strTrim text).length < MIN_SUMMARY_INPUT ∨ minL = 0 ∨ maxL = 0 ∨ maxL < minL then
    .error (.InvalidInputError "Text too short or invalid length bounds")
  else
    .ok { original_length := text.length
          summary_length := (summaryOf text minL maxL).length
          compressionRatioVal :=
            if text.length = 0 then 0
            else ((summaryOf text minL maxL).length : ℚ) / (text.length : ℚ)
          summary := summaryOf text minL maxL }

end Backend

namespace Frontend

/-- A document summary as listed by the frontend (`doc.document_id`,
`doc.filename`, `doc.size` in App.js). -/
structure DocSummary where
  document_id : Nat
  filename : String
  size : Nat
deriving DecidableEq, Repr

/-- The frontend state components touched by the guards under verification
(App.js `useState` hooks `documents`, `checkResults`, `uploadMessage`,
`loading`). -/
structure UIState where
  documents : List DocSummary
  checkResults : Option Backend.CheckResult
  uploadMessage : String
  loading : Bool
deriving DecidableEq, Repr

/-- Embedded from App.js `compareTexts` (the guard at the top of the
function): the HTTP request is issued iff both texts are non-empty after
trimming — `if (!text1.trim() || !text2.trim())` alerts and returns. -/
def compareSendsRequest (text1 text2 : String) : Bool :=
  !(strTrim text1).data.isEmpty && !(strTrim text2).data.isEmpty

/-- A selected file as seen by App.js `handleFileUpload`: its MIME type
(`file.type`) and its name (`file.name`). -/
structure FileInfo where
  type : String
  name : String
deriving DecidableEq, Repr

/-- Whether `handleFileUpload` issued the upload network request. -/
inductive UploadOutcome where
  | noRequest
  | request
deriving DecidableEq, Repr

/-- Embedded from App.js `handleFileUpload`: with no file selected it
returns; a file failing the type guard — `if (!file.type.includes('text') &&
!file.name.endsWith('.txt'))` — triggers an alert and a return before any
state change or network call; otherwise `setLoading(true)` runs and the
upload request is issued. -/
def handleFileUpload (st : UIState) (file : Option FileInfo) :
    UploadOutcome × UIState :=
  match file with
  | none => (.noRequest, st)
  | some f =>
    if !(strContains f.type "text") && !(strEndsWith f.name ".txt") then
      (.noRequest, st)
    else
      (.request, { st with loading := true })

/-- Embedded from App.js `deleteDocument`: an unconfirmed dialog returns with
no change; an ok DELETE response sets the success message, reloads the
document list (`loadDocuments`, whose freshly fetched list is the `fresh`
parameter) and resets `checkResults` to null; an error response leaves the
state unchanged (only an alert is shown). -/
def deleteDocument (st : UIState) (confirmed : Bool) (respOk : Bool)
    (fresh : List DocSummary) : UIState :=
  if !confirmed then st
  else if respOk then
    { st with uploadMessage := "Document deleted successfully!"
              documents := fresh
              checkResults := none }
  else st

end Frontend

/-- A concrete square-root stub for witnesses: the guarded similarity
properties hold for every `sqrt` parameter, so any function instantiates
them. -/
def sqrtW : ℚ → ℚ := fun _ => 1

/-- A concrete embedding stub for witnesses. -/
def embedW : String → List ℚ := fun _ => [1, 0]

/-- Concrete document for witnesses. -/
def d1W : Backend.Document := ⟨1, "a.txt", "alpha", 5, [1, 0]⟩

/-- Concrete document for witnesses. -/
def d2W : Backend.Document := ⟨2, "b.txt", "beta", 4, [0, 1]⟩

/-- Concrete two-document corpus for witnesses. -/
def storeW : List Backend.Document := [d1W, d2W]

/-- Concrete one-document corpus for witnesses. -/
def storeOneW : List Backend.Document := [d1W]

/-- The similarity result `compare` produces on the witness inputs. -/
def resultW : Backend.SimilarityResult :=
  Backend.mkResult (Backend.clamp01 (Backend.cosineSim sqrtW (embedW "alpha") (embedW "beta")))

/-- The check entry produced for `d2W` when checking `d1W` against
`storeW`. -/
def entryW : Backend.CheckEntry :=
  Backend.mkEntry d2W (Backend.clamp01 (Backend.cosineSim sqrtW d1W.embedding d2W.embedding))

/-- Concrete input text for the summarizer claims: two sentences of lengths
24 and 9, total text length 36. -/
def sumTextW : String := "Hello world sentence one. Short two."

/-- The check result produced when checking `d1W` against `storeW`. -/
def crW : Backend.CheckResult :=
  { results := [entryW]
    average_similarity :=
      ([entryW].map (fun e => e.similarity_score)).sum / (([entryW].length : Nat) : ℚ)
    plagiarism_count := ([entryW].filter (fun e => e.is_plagiarized)).length }

/-- The summary result produced for `sumTextW` with bounds 36 and 60. -/
def sumResW : Backend.SummaryResult :=
  { original_length := sumTextW.length
    summary_length := (Backend.summaryOf sumTextW 36 60).length
    compressionRatioVal :=
      if sumTextW.length = 0 then 0
      else ((Backend.summaryOf sumTextW 36 60).length : ℚ) / (sumTextW.length : ℚ)
    summary := Backend.summaryOf sumTextW 36 60 }

namespace Backend

/-- C1: every SimilarityResult the system produces — by `compare` on two
texts, or as an entry of a corpus `check` — has `is_plagiarized` equal to the
boolean value of `similarity_score ≥ threshold`, where `threshold` is the
decision boundary carried in the same result. -/
theorem produced_results_threshold_consistent (sqrt : ℚ → ℚ)
    (embed : String → List ℚ) (t1 t2 : String) (r : SimilarityResult)
    (store : List Document) (docId : Nat) (cr : CheckResult) :
    (compare sqrt embed t1 t2 = .ok r → r.thresholdConsistent) ∧
    (check sqrt store docId = .ok cr → ∀ e ∈ cr.results, e.thresholdConsistent) := by
  constructor
  · intro h
    unfold compare at h
    split at h
    · exact absurd h (by simp)
    · rw [Except.ok.injEq] at h
      subst h
      rfl
  · intro h e he
    unfold check at h
    split at h
    · exact absurd h (by simp)
    · rw [Except.ok.injEq] at h
      subst h
      simp only [List.mem_map] at he
      obtain ⟨d, -, rfl⟩ := he
      rfl

/-- Witness for C1: the threshold-consistency theorem applied to concrete
compare inputs and a concrete two-document corpus. -/
theorem produced_results_threshold_consistent_witness :
    resultW.thresholdConsistent ∧ entryW.thresholdConsistent := by
  constructor
  · exact (produced_results_threshold_consistent sqrtW embedW "alpha" "beta"
      resultW storeW 1 crW).1 (by rfl)
  · exact (produced_results_threshold_consistent sqrtW embedW "alpha" "beta"
      resultW storeW 1 crW).2 (by rfl) entryW (List.mem_singleton_self entryW)

/-- C2: for every pair of inputs that are non-empty after trimming, `compare`
succeeds and its `similarity_score` lies in [0, 1]; in particular a negative
raw cosine similarity is floored to 0. -/
theorem compare_score_range (sqrt : ℚ → ℚ) (embed : String → List ℚ)
    (t1 t2 : String) (h1 : strTrim t1 ≠ "") (h2 : strTrim t2 ≠ "") :
    ∃ r, compare sqrt embed t1 t2 = .ok r ∧
      0 ≤ r.similarity_score ∧ r.similarity_score ≤ 1 ∧
      (cosineSim sqrt (embed t1) (embed t2) < 0 → r.similarity_score = 0) := by
  refine ⟨mkResult (clamp01 (cosineSim sqrt (embed t1) (embed t2))), ?_, ?_, ?_, ?_⟩
  · unfold compare
    rw [if_neg (by tauto)]
  · show (0 : ℚ) ≤ clamp01 _
    exact le_max_left 0 _
  · show clamp01 _ ≤ (1 : ℚ)
    exact max_le (by norm_num) (min_le_left 1 _)
  · intro hneg
    show clamp01 _ = 0
    unfold clamp01
    rw [min_eq_right (le_of_lt (lt_of_lt_of_le hneg zero_le_one)),
      max_eq_left (le_of_lt hneg)]

/-- Witness for C2: the range theorem applied at concrete non-empty texts. -/
theorem compare_score_range_witness :
    ∃ r, compare sqrtW embedW "alpha" "beta" = .ok r ∧
      0 ≤ r.similarity_score ∧ r.similarity_score ≤ 1 ∧
      (cosineSim sqrtW (embedW "alpha") (embedW "beta") < 0 → r.similarity_score = 0) :=
  compare_score_range sqrtW embedW "alpha" "beta" (by decide) (by decide)

/-- C3: if either embedding vector has zero norm — equivalently, zero squared
norm — the cosine similarity is defined to be 0 and the division branch of
`cosineSim` is never taken, so no division-by-zero error can arise. -/
theorem cosineSim_zero_norm (sqrt : ℚ → ℚ) (a b : List ℚ)
    (h : normSq a = 0 ∨ normSq b = 0) : cosineSim sqrt a b = 0 := by
  unfold cosineSim
  rw [if_pos h]

/-- Witness for C3: the zero-norm guard applied to a concrete zero vector. -/
theorem cosineSim_zero_norm_witness : cosineSim sqrtW [0, 0] [1, 2] = 0 :=
  cosineSim_zero_norm sqrtW [0, 0] [1, 2]
    (Or.inl (by simp [normSq, dot]))

/-- C4: `compare` fails, with `InvalidInputError` (the error the HTTP layer
surfaces as a 400), exactly when at least one input is empty after trimming
whitespace; for all other inputs it returns a `SimilarityResult`. -/
theorem compare_invalid_iff (sqrt : ℚ → ℚ) (embed : String → List ℚ)
    (t1 t2 : String) :
    ((∃ m, compare sqrt embed t1 t2 = .error (.InvalidInputError m)) ↔
      (strTrim t1 = "" ∨ strTrim t2 = "")) ∧
    (¬(strTrim t1 = "" ∨ strTrim t2 = "") →
      ∃ r, compare sqrt embed t1 t2 = .ok r) := by
  by_cases hc : strTrim t1 = "" ∨ strTrim t2 = "" <;>
    simp [compare, hc]

/-- Witness for C4: an empty first input fails with `InvalidInputError`, and
two non-empty inputs succeed. -/
theorem compare_invalid_iff_witness :
    (∃ m, compare sqrtW embedW "" "beta" = .error (.InvalidInputError m)) ∧
    (∃ r, compare sqrtW embedW "alpha" "beta" = .ok r) :=
  ⟨(compare_invalid_iff sqrtW embedW "" "beta").1.mpr (Or.inl (by decide)),
   (compare_invalid_iff sqrtW embedW "alpha" "beta").2 (by decide)⟩

/-- Filtering away an id that occurs in none of the documents keeps the whole
list. -/
theorem filter_ne_id_of_not_mem {l : List Document} {i : Nat}
    (h : ∀ d ∈ l, d.id ≠ i) : l.filter (fun d => d.id != i) = l :=
  List.filter_eq_self.mpr (fun d hd => by simpa using h d hd)

/-- With duplicate-free ids and the subject present, excluding the subject
removes exactly one document. -/
theorem length_filter_ne_id {l : List Document} {i : Nat}
    (hnd : (l.map Document.id).Nodup) (hm : i ∈ l.map Document.id) :
    (l.filter (fun d => d.id != i)).length = l.length - 1 := by
  induction l with
  | nil => simp at hm
  | cons d t ih =>
    simp only [List.map_cons, List.nodup_cons] at hnd
    obtain ⟨hnotin, hndt⟩ := hnd
    by_cases hdi : d.id = i
    · subst hdi
      have ht : ∀ x ∈ t, x.id ≠ d.id := by
        intro x hx hxd
        exact hnotin (hxd ▸ List.mem_map_of_mem Document.id hx)
      rw [List.filter_cons_of_neg (by simp)]
      rw [filter_ne_id_of_not_mem ht]
      simp
    · have hmt : i ∈ t.map Document.id := by
        rcases List.mem_cons.mp hm with h | h
        · exact absurd h.symm hdi
        · exact h
      have htpos : 0 < t.length := by
        cases t with
        | nil => simp at hmt
        | cons _ _ => simp
      rw [List.filter_cons_of_pos (by simpa using hdi)]
      simp only [List.length_cons]
      rw [ih hndt hmt]
      omega

/-- Mapping ids commutes with excluding the subject. -/
theorem map_id_filter_ne (l : List Document) (i : Nat) :
    (l.filter (fun d => d.id != i)).map Document.id =
      (l.map Document.id).filter (fun x => x != i) := by
  induction l with
  | nil => rfl
  | cons d t ih =>
    by_cases hdi : d.id = i
    · rw [List.filter_cons_of_neg (by simp [hdi]), List.map_cons,
        List.filter_cons_of_neg (by simp [hdi]), ih]
    · rw [List.filter_cons_of_pos (by simpa using hdi), List.map_cons,
        List.map_cons, List.filter_cons_of_pos (by simpa using hdi), ih]

/-- C5: for a duplicate-free corpus containing the subject, `check` succeeds,
its `results` has length `store.length - 1`, and the compared document ids
are exactly the non-subject ids in the store's insertion order (so every
other stored document appears exactly once). -/
theorem check_results_complete (sqrt : ℚ → ℚ) (store : List Document)
    (docId : Nat) (hnd : (store.map Document.id).Nodup)
    (hm : docId ∈ store.map Document.id) :
    ∃ cr, check sqrt store docId = .ok cr ∧
      cr.results.length = store.length - 1 ∧
      cr.results.map (fun e => e.document_id) =
        (store.map Document.id).filter (fun x => x != docId) := by
  obtain ⟨subject, hfind⟩ : ∃ s, store.find? (fun d => d.id == docId) = some s := by
    rw [← Option.isSome_iff_exists, List.find?_isSome]
    obtain ⟨d, hd, hdi⟩ := List.mem_map.mp hm
    exact ⟨d, hd, by simpa using hdi⟩
  refine ⟨_, by rw [check, hfind], ?_, ?_⟩
  · rw [List.length_map]
    exact length_filter_ne_id hnd hm
  · rw [List.map_map]
    have : ((fun e : CheckEntry => e.document_id) ∘
        (fun d => mkEntry d (clamp01 (cosineSim sqrt subject.embedding d.embedding)))) =
        Document.id := rfl
    rw [this, map_id_filter_ne]

/-- Witness for C5: the completeness theorem applied to the concrete
two-document corpus with subject id 1. -/
theorem check_results_complete_witness :
    ∃ cr, check sqrtW storeW 1 = .ok cr ∧
      cr.results.length = storeW.length - 1 ∧
      cr.results.map (fun e => e.document_id) =
        (storeW.map Document.id).filter (fun x => x != 1) :=
  check_results_complete sqrtW storeW 1 (by decide) (by decide)

/-- C6: whenever the subject is found, `check` succeeds; its
`average_similarity` is the arithmetic mean of the scores in `results` (0.0
when `results` is empty); and on a corpus containing only the subject it
returns the successful empty result — no results, average 0, plagiarism
count 0. -/
theorem check_singleton_and_mean (sqrt : ℚ → ℚ) (store : List Document)
    (docId : Nat) (subject : Document)
    (hfind : store.find? (fun d => d.id == docId) = some subject) :
    ∃ cr, check sqrt store docId = .ok cr ∧
      cr.average_similarity = (if cr.results = [] then 0
        else (cr.results.map (fun e => e.similarity_score)).sum /
          (cr.results.length : ℚ)) ∧
      (store = [subject] →
        cr.results = [] ∧ cr.average_similarity = 0 ∧ cr.plagiarism_count = 0) := by
  refine ⟨_, by rw [check, hfind], rfl, ?_⟩
  intro hstore
  have hid : (subject.id == docId) = true :=
    @List.find?_some Document (fun d => d.id == docId) subject store hfind
  have hrs : store.filter (fun d => d.id != docId) = [] := by
    subst hstore
    simp only [List.filter_cons, List.filter_nil]
    rw [show (subject.id != docId) = false by simpa using hid]
    simp
  refine ⟨?_, ?_, ?_⟩
  · show (store.filter (fun d => d.id != docId)).map _ = []
    rw [hrs]
    rfl
  · show (if ((store.filter (fun d => d.id != docId)).map _ : List CheckEntry) = [] then (0 : ℚ)
      else _) = 0
    rw [hrs]
    rfl
  · show (((store.filter (fun d => d.id != docId)).map _).filter
      (fun e : CheckEntry => e.is_plagiarized)).length = 0
    rw [hrs]
    rfl

/-- Witness for C6: the mean/empty-corpus theorem applied to the concrete
one-document corpus, whose subject is the only document. -/
theorem check_singleton_and_mean_witness :
    ∃ cr, check sqrtW storeOneW 1 = .ok cr ∧
      cr.average_similarity = (if cr.results = [] then 0
        else (cr.results.map (fun e => e.similarity_score)).sum /
          (cr.results.length : ℚ)) ∧
      (storeOneW = [d1W] →
        cr.results = [] ∧ cr.average_similarity = 0 ∧ cr.plagiarism_count = 0) :=
  check_singleton_and_mean sqrtW storeOneW 1 d1W (by rfl)

/-- C7: `summarize` fails with `InvalidInputError` exactly when the trimmed
text is below the minimum viable size (20 characters), or a length bound is
not positive, or `minLength > maxLength`; when all three constraints hold it
proceeds and returns a `SummaryResult`. -/
theorem summarize_validation (t : String) (a b : Nat) :
    ((∃ m, summarize t a b = .error (.InvalidInputError m)) ↔
      ((strTrim t).length < MIN_SUMMARY_INPUT ∨ a = 0 ∨ b = 0 ∨ b < a)) ∧
    (¬((strTrim t).length < MIN_SUMMARY_INPUT ∨ a = 0 ∨ b = 0 ∨ b < a) →
      ∃ r, summarize t a b = .ok r) := by
  by_cases hc : (strTrim t).length < MIN_SUMMARY_INPUT ∨ a = 0 ∨ b = 0 ∨ b < a <;>
    simp [summarize, hc]

/-- Witness for C7: a too-short text is rejected with `InvalidInputError`,
and a valid input (36 trimmed characters, bounds 30 ≤ 150) succeeds. -/
theorem summarize_validation_witness :
    (∃ m, summarize "too short" 30 150 = .error (.InvalidInputError m)) ∧
    (∃ r, summarize sumTextW 30 150 = .ok r) :=
  ⟨(summarize_validation "too short" 30 150).1.mpr (Or.inl (by decide)),
   (summarize_validation sumTextW 30 150).2 (by decide)⟩

/-- Length of a space-join: the sum of the part lengths plus one separator
between consecutive parts. -/
theorem joinSp_length (l : List String) :
    (joinSp l).length = (l.map String.length).sum + (l.length - 1) := by
  induction l with
  | nil => rfl
  | cons s rest ih =>
    cases rest with
    | nil => simp [joinSp]
    | cons t r =>
      show (s ++ " " ++ joinSp (t :: r)).length = _
      rw [String.length_append, String.length_append, ih]
      simp only [List.map_cons, List.sum_cons, List.length_cons]
      have : (" ".length : Nat) = 1 := rfl
      omega

/-- Joining a permutation of a list of strings yields a string of the same
length. -/
theorem joinSp_length_perm {l l' : List String} (h : l.Perm l') :
    (joinSp l).length = (joinSp l').length := by
  rw [joinSp_length, joinSp_length, h.length_eq, (h.map String.length).sum_eq]

/-- Appending one more part to a non-empty join adds the part plus one
separator. -/
theorem joinSp_append_singleton (acc : List String) (w : String) (h : acc ≠ []) :
    (joinSp (acc ++ [w])).length = (joinSp acc).length + 1 + w.length := by
  induction acc with
  | nil => exact absurd rfl h
  | cons a t ih =>
    cases t with
    | nil =>
      show (a ++ " " ++ joinSp [w]).length = _
      rw [String.length_append, String.length_append]
      rfl
    | cons b t' =>
      show (a ++ " " ++ joinSp ((b :: t') ++ [w])).length = (a ++ " " ++ joinSp (b :: t')).length + 1 + w.length
      rw [String.length_append, String.length_append, ih (by simp)]
      rw [String.length_append, String.length_append]
      omega

/-- The words kept by `takeFitRest` form a prefix of the word list. -/
theorem takeFitRest_take (maxL : Nat) :
    ∀ (ws : List String) (cur : Nat), ∃ k, takeFitRest maxL cur ws = ws.take k := by
  intro ws
  induction ws with
  | nil => exact fun _ => ⟨0, rfl⟩
  | cons w t ih =>
    intro cur
    unfold takeFitRest
    by_cases hfit : cur + 1 + w.length ≤ maxL
    · obtain ⟨k, hk⟩ := ih (cur + 1 + w.length)
      exact ⟨k + 1, by rw [if_pos hfit, hk]; rfl⟩
    · exact ⟨0, by rw [if_neg hfit]; rfl⟩

/-- Extending a non-empty selection of joined length `cur ≤ maxL` with
`takeFitRest` keeps the joined length within `maxL`. -/
theorem takeFitRest_length (maxL : Nat) :
    ∀ (ws : List String) (acc : List String) (cur : Nat), acc ≠ [] →
      (joinSp acc).length = cur → cur ≤ maxL →
      (joinSp (acc ++ takeFitRest maxL cur ws)).length ≤ maxL := by
  intro ws
  induction ws with
  | nil =>
    intro acc cur _ hlen hle
    rw [takeFitRest, List.append_nil, hlen]
    exact hle
  | cons w t ih =>
    intro acc cur hne hlen hle
    unfold takeFitRest
    by_cases hfit : cur + 1 + w.length ≤ maxL
    · rw [if_pos hfit, List.append_cons acc w _]
      exact ih (acc ++ [w]) (cur + 1 + w.length) (by simp)
        (by rw [joinSp_append_singleton acc w hne, hlen]) hfit
    · rw [if_neg hfit, List.append_nil, hlen]
      exact hle

/-- The truncated sentence never exceeds `maxL` characters. -/
theorem truncateWords_length (maxL : Nat) (s : String) :
    (truncateWords maxL s).length ≤ maxL := by
  unfold truncateWords
  cases hw : wordsOf s with
  | nil => exact Nat.zero_le maxL
  | cons w ws =>
    show (if w.length ≤ maxL then joinSp (w :: takeFitRest maxL w.length ws) else "").length ≤ maxL
    by_cases hfit : w.length ≤ maxL
    · rw [if_pos hfit]
      have := takeFitRest_length maxL ws [w] w.length (by simp) (by rfl) hfit
      simpa using this
    · rw [if_neg hfit]
      exact Nat.zero_le maxL

/-- The truncated sentence is the join of a prefix of the sentence's words —
truncation happens at a word boundary and never splits a word
mid-character. -/
theorem truncateWords_word_boundary (maxL : Nat) (s : String) :
    ∃ k, truncateWords maxL s = joinSp ((wordsOf s).take k) := by
  unfold truncateWords
  cases hw : wordsOf s with
  | nil => exact ⟨0, rfl⟩
  | cons w ws =>
    by_cases hfit : w.length ≤ maxL
    · obtain ⟨k, hk⟩ := takeFitRest_take maxL ws w.length
      refine ⟨k + 1, ?_⟩
      show (if w.length ≤ maxL then joinSp (w :: takeFitRest maxL w.length ws) else "") =
        joinSp ((w :: ws).take (k + 1))
      rw [if_pos hfit, hk]
      rfl
    · refine ⟨0, ?_⟩
      show (if w.length ≤ maxL then joinSp (w :: takeFitRest maxL w.length ws) else "") =
        joinSp ((w :: ws).take 0)
      rw [if_neg hfit]
      rfl

/-- Behaviour of the greedy accumulation: the joined length of the selection
never exceeds `maxL`, and it either reaches `minL`, or consumed every ranked
sentence, or stopped at a sentence that would have pushed the length beyond
`maxL`. -/
theorem selectGo_spec (minL maxL : Nat) :
    ∀ (rest acc : List (Nat × String)) (len : Nat), acc ≠ [] →
      (joinSp (acc.map Prod.snd)).length = len → len ≤ maxL →
      (joinSp ((selectGo minL maxL acc len rest).map Prod.snd)).length ≤ maxL ∧
      (minL ≤ (joinSp ((selectGo minL maxL acc len rest).map Prod.snd)).length ∨
       selectGo minL maxL acc len rest = acc ++ rest ∨
       ∃ s ∈ rest, maxL <
         (joinSp ((selectGo minL maxL acc len rest).map Prod.snd)).length +
           1 + s.2.length) := by
  intro rest
  induction rest with
  | nil =>
    intro acc len _ hlen hle
    refine ⟨?_, Or.inr (Or.inl ?_)⟩
    · rw [show selectGo minL maxL acc len [] = acc from rfl, hlen]
      exact hle
    · rw [show selectGo minL maxL acc len [] = acc from rfl, List.append_nil]
  | cons s rest ih =>
    intro acc len hne hlen hle
    by_cases hmin : minL ≤ len
    · have heq : selectGo minL maxL acc len (s :: rest) = acc := by
        show (if minL ≤ len then acc else _) = acc
        rw [if_pos hmin]
      rw [heq, hlen]
      exact ⟨hle, Or.inl hmin⟩
    · by_cases hfit : len + 1 + s.2.length ≤ maxL
      · have heq : selectGo minL maxL acc len (s :: rest) =
            selectGo minL maxL (acc ++ [s]) (len + 1 + s.2.length) rest := by
          show (if minL ≤ len then acc else
            if len + 1 + s.2.length ≤ maxL then _ else acc) = _
          rw [if_neg hmin, if_pos hfit]
        have hlen' : (joinSp ((acc ++ [s]).map Prod.snd)).length = len + 1 + s.2.length := by
          rw [List.map_append]
          show (joinSp (acc.map Prod.snd ++ [s.2])).length = len + 1 + s.2.length
          rw [joinSp_append_singleton (acc.map Prod.snd) s.2 (by simpa using hne), hlen]
        obtain ⟨h1, h2⟩ := ih (acc ++ [s]) (len + 1 + s.2.length) (by simp) hlen' hfit
        rw [heq]
        refine ⟨h1, ?_⟩
        rcases h2 with h | h | ⟨w, hw, hlt⟩
        · exact Or.inl h
        · refine Or.inr (Or.inl ?_)
          rw [h, List.append_assoc]
          rfl
        · exact Or.inr (Or.inr ⟨w, List.mem_cons_of_mem s hw, hlt⟩)
      · have heq : selectGo minL maxL acc len (s :: rest) = acc := by
          show (if minL ≤ len then acc else
            if len + 1 + s.2.length ≤ maxL then _ else acc) = acc
          rw [if_neg hmin, if_neg hfit]
        rw [heq, hlen]
        exact ⟨hle, Or.inr (Or.inr ⟨s, List.mem_cons_self s rest,
          Nat.lt_of_not_le hfit⟩)⟩

/-- The summary string has the same length as the space-join of the selected
sentences before positional re-ordering (re-ordering is a permutation). -/
theorem summaryOf_length (t : String) (a b : Nat) :
    (summaryOf t a b).length =
      (joinSp ((selectRanked a b (rankedSentences t)).map Prod.snd)).length :=
  joinSp_length_perm
    ((List.perm_insertionSort (fun p q => p.1 ≤ q.1)
      (selectRanked a b (rankedSentences t))).map Prod.snd)

/-- C8 (amended): for every valid summarize input the summary never exceeds
`maxLength` characters, and in the degenerate truncation case it is a
word-boundary prefix of the highest-ranked sentence; the summary reaches
`minLength` unless the first selected unit alone exceeds `maxLength`, or
every ranked sentence was already selected, or the next ranked sentence
would have pushed the summary beyond `maxLength`. -/
theorem summarize_bounds (t : String) (a b : Nat)
    (hok : ¬((strTrim t).length < MIN_SUMMARY_INPUT ∨ a = 0 ∨ b = 0 ∨ b < a))
    (r : SummaryResult) (hr : summarize t a b = .ok r) :
    r.summary_length ≤ b ∧
    (∀ top rest, rankedSentences t = top :: rest → b < top.2.length →
      ∃ k, r.summary = joinSp ((wordsOf top.2).take k)) ∧
    (a ≤ r.summary_length ∨
     (∃ top rest, rankedSentences t = top :: rest ∧ b < top.2.length) ∨
     (selectRanked a b (rankedSentences t)).length = (rankedSentences t).length ∨
     (∃ s ∈ rankedSentences t, b < r.summary_length + 1 + s.2.length)) := by
  unfold summarize at hr
  rw [if_neg hok, Except.ok.injEq] at hr
  subst hr
  cases hcase : rankedSentences t with
  | nil =>
    have hzero : (summaryOf t a b).length = 0 := by
      rw [summaryOf_length, hcase]
      rfl
    refine ⟨?_, ?_, ?_⟩
    · show (summaryOf t a b).length ≤ b
      rw [hzero]
      exact Nat.zero_le b
    · intro top rest habs
      exact absurd habs (by simp)
    · exact Or.inr (Or.inr (Or.inl rfl))
  | cons top rest =>
    by_cases hdeg : b < top.2.length
    · have hsel : selectRanked a b (rankedSentences t) = [(top.1, truncateWords b top.2)] := by
        rw [hcase]
        show (if b < top.2.length then [(top.1, truncateWords b top.2)]
          else selectGo a b [top] top.2.length rest) = [(top.1, truncateWords b top.2)]
        rw [if_pos hdeg]
      have hsum : summaryOf t a b = truncateWords b top.2 := by
        unfold summaryOf
        rw [hsel]
        rfl
      refine ⟨?_, ?_, ?_⟩
      · show (summaryOf t a b).length ≤ b
        rw [hsum]
        exact truncateWords_length b top.2
      · intro top' rest' h _
        injection h with h1 h2
        subst h1
        show ∃ k, summaryOf t a b = joinSp ((wordsOf top.2).take k)
        rw [hsum]
        exact truncateWords_word_boundary b top.2
      · exact Or.inr (Or.inl ⟨top, rest, rfl, hdeg⟩)
    · have hsel : selectRanked a b (rankedSentences t) =
          selectGo a b [top] top.2.length rest := by
        rw [hcase]
        show (if b < top.2.length then [(top.1, truncateWords b top.2)]
          else selectGo a b [top] top.2.length rest) = selectGo a b [top] top.2.length rest
        rw [if_neg hdeg]
      obtain ⟨h1, h2⟩ := selectGo_spec a b rest [top] top.2.length (by simp)
        (by rfl) (Nat.le_of_not_lt hdeg)
      have hlen : (summaryOf t a b).length =
          (joinSp ((selectGo a b [top] top.2.length rest).map Prod.snd)).length := by
        rw [summaryOf_length, hsel]
      refine ⟨?_, ?_, ?_⟩
      · show (summaryOf t a b).length ≤ b
        rw [hlen]
        exact h1
      · intro top' rest' h hdeg'
        injection h with h1' h2'
        subst h1'
        exact absurd hdeg' hdeg
      · rcases h2 with h | h | ⟨w, hw, hlt⟩
        · refine Or.inl ?_
          show a ≤ (summaryOf t a b).length
          rw [hlen]
          exact h
        · refine Or.inr (Or.inr (Or.inl ?_))
          show (selectRanked a b (top :: rest)).length = (top :: rest).length
          have hsel' : selectRanked a b (top :: rest) =
              selectGo a b [top] top.2.length rest := by
            show (if b < top.2.length then [(top.1, truncateWords b top.2)]
              else selectGo a b [top] top.2.length rest) = selectGo a b [top] top.2.length rest
            rw [if_neg hdeg]
          rw [hsel', h]
          rfl
        · refine Or.inr (Or.inr (Or.inr ⟨w, List.mem_cons_of_mem top hw, ?_⟩))
          show b < (summaryOf t a b).length + 1 + w.2.length
          rw [hlen]
          exact hlt

/-- Witness for C8 (amended): the bounds theorem applied to the concrete
valid input (bounds 36 ≤ 60, trimmed length 36 ≥ 20). -/
theorem summarize_bounds_witness :
    sumResW.summary_length ≤ 60 ∧
    (36 ≤ sumResW.summary_length ∨
     (∃ top rest, rankedSentences sumTextW = top :: rest ∧ 60 < top.2.length) ∨
     (selectRanked 36 60 (rankedSentences sumTextW)).length =
       (rankedSentences sumTextW).length ∨
     (∃ s ∈ rankedSentences sumTextW, 60 < sumResW.summary_length + 1 + s.2.length)) := by
  have h := summarize_bounds sumTextW 36 60 (by decide) sumResW rfl
  exact ⟨h.1, h.2.2⟩

/-- Counterexample for C8 as stated: on the valid input `sumTextW` with
`minLength = 36`, `maxLength = 60`, summarize succeeds, the first selected
unit (the highest-ranked sentence, 24 characters) does not exceed
`maxLength`, yet the summary length is 34 < `minLength` — the claimed
`summary_length ≥ minLength` fails even though the degenerate truncation
case does not apply (here the ranked sentences were simply exhausted). -/
theorem summarize_min_bound_cex :
    summarize sumTextW 36 60 = .ok sumResW ∧
    sumResW.summary_length = 34 ∧
    rankedSentences sumTextW = [(0, "Hello world sentence one"), (1, "Short two")] ∧
    ¬ 60 < ("Hello world sentence one").length ∧ 34 < 36 :=
  ⟨rfl, by decide, by decide, by decide, by decide⟩

end Backend

namespace Frontend

/-- C9: whenever the delete was confirmed and the DELETE response is ok,
`deleteDocument` resets the displayed check results to null and reloads the
document list, so the UI never keeps showing a `CheckResult` computed against
a corpus that still contained the deleted document. -/
theorem deleteDocument_resets_checkResults (st : UIState) (confirmed respOk : Bool)
    (fresh : List DocSummary) (hc : confirmed = true) (hok : respOk = true) :
    (deleteDocument st confirmed respOk fresh).checkResults = none ∧
    (deleteDocument st confirmed respOk fresh).documents = fresh := by
  subst hc
  subst hok
  exact ⟨rfl, rfl⟩

/-- Witness for C9: a state currently displaying a stale check result, after
a confirmed, successful delete. -/
theorem deleteDocument_resets_checkResults_witness :
    (deleteDocument ⟨[⟨1, "a.txt", 5⟩], some ⟨[], 0, 0⟩, "", false⟩ true true []).checkResults
      = none ∧
    (deleteDocument ⟨[⟨1, "a.txt", 5⟩], some ⟨[], 0, 0⟩, "", false⟩ true true []).documents
      = [] :=
  deleteDocument_resets_checkResults ⟨[⟨1, "a.txt", 5⟩], some ⟨[], 0, 0⟩, "", false⟩
    true true [] rfl rfl

/-- C10: `handleFileUpload` issues the upload request exactly for a selected
file whose MIME type contains "text" or whose name ends with ".txt"; for any
other file (and for no file) it returns with no network call and the UI state
completely unchanged. -/
theorem handleFileUpload_guard (st : UIState) (f : FileInfo) :
    ((strContains f.type "text" || strEndsWith f.name ".txt") = false →
      handleFileUpload st (some f) = (.noRequest, st)) ∧
    ((handleFileUpload st (some f)).1 = .request ↔
      (strContains f.type "text" = true ∨ strEndsWith f.name ".txt" = true)) ∧
    handleFileUpload st none = (.noRequest, st) := by
  refine ⟨?_, ?_, rfl⟩
  · intro h
    rw [Bool.or_eq_false_iff] at h
    show (if !(strContains f.type "text") && !(strEndsWith f.name ".txt") then
      ((UploadOutcome.noRequest, st) : UploadOutcome × UIState)
      else (.request, { st with loading := true })) = (.noRequest, st)
    rw [if_pos (by rw [h.1, h.2]; rfl)]
  · show ((if !(strContains f.type "text") && !(strEndsWith f.name ".txt") then
      ((UploadOutcome.noRequest, st) : UploadOutcome × UIState)
      else (.request, { st with loading := true })).1 = .request) ↔ _
    by_cases hg : (!(strContains f.type "text") && !(strEndsWith f.name ".txt")) = true
    · rw [if_pos hg]
      rw [Bool.and_eq_true, Bool.not_eq_true', Bool.not_eq_true'] at hg
      simp [hg.1, hg.2]
    · rw [if_neg (by simpa using hg)]
      rw [Bool.and_eq_true] at hg
      constructor
      · intro _
        rcases Decidable.not_and_iff_or_not.mp hg with h | h
        · exact Or.inl (by simpa using h)
        · exact Or.inr (by simpa using h)
      · intro _
        rfl

/-- Witness for C10: a PNG image produces no request and leaves the state
unchanged; a plain-text file produces the upload request. -/
theorem handleFileUpload_guard_witness :
    handleFileUpload ⟨[], none, "", false⟩ (some ⟨"image/png", "photo.png"⟩) =
      (.noRequest, ⟨[], none, "", false⟩) ∧
    (handleFileUpload ⟨[], none, "", false⟩ (some ⟨"text/plain", "notes.txt"⟩)).1 =
      .request :=
  ⟨(handleFileUpload_guard ⟨[], none, "", false⟩ ⟨"image/png", "photo.png"⟩).1 (by decide),
   (handleFileUpload_guard ⟨[], none, "", false⟩ ⟨"text/plain", "notes.txt"⟩).2.1.mpr
     (Or.inl (by decide))⟩

end Frontend
